import Mathlib

/-
Verification of the content-extraction and card-synthesis pipeline.

The Python sources are shallowly embedded below. Python strings are
modelled as lists of characters (`Str`); Python's `str.split(sep)`,
`str.startswith`, `str.strip`, `str.lower`, substring tests and
truthiness checks are modelled by executable Lean functions with the
same semantics. Stateful loops are modelled by explicit state passing;
code that can raise is modelled with `Option` or an explicit crash flag.
-/

/-- Python strings, modelled as lists of characters. -/
abbrev Str := List Char

/-- The null character, written `\x00` in the Python sources. -/
def nullChar : Char := Char.ofNat 0

/-- Python truthiness of an optional string: `None` and the empty string
are falsy, every other string is truthy. -/
def pyTruthy : Option Str → Bool
  | none => false
  | some s => !s.isEmpty

/-- Python `s.startswith(pfx)`. -/
def pyStartswith (pfx s : Str) : Bool := decide (s.take pfx.length = pfx)

/-- Leftmost occurrence of `sep` in `s`: returns the text before the first
occurrence together with the text after it, or `none` when `sep` does not
occur in `s` (callers only use non-empty separators). -/
def splitFirst (sep : Str) : Str → Option (Str × Str)
  | [] => none
  | c :: cs =>
    if pyStartswith sep (c :: cs) then some ([], (c :: cs).drop sep.length)
    else
      match splitFirst sep cs with
      | none => none
      | some (pre, post) => some (c :: pre, post)

/-- Fuel-driven worker for `pySplit`; the fuel is always sufficient at the
call site, so the fuel-exhausted branch is unreachable. -/
def pySplitAux (sep : Str) : Nat → Str → List Str
  | 0, s => [s]
  | fuel + 1, s =>
    match splitFirst sep s with
    | none => [s]
    | some (pre, post) => pre :: pySplitAux sep fuel post

/-- Python `s.split(sep)` for a non-empty separator `sep`. -/
def pySplit (sep s : Str) : List Str := pySplitAux sep (s.length + 1) s

/-- Python `s.lower()` (ASCII case folding, which covers every pattern the
sources compare against). -/
def pyLower (s : Str) : Str := s.map Char.toLower

/-- Python `needle in hay` substring test. -/
def pyContains (needle hay : Str) : Bool := (splitFirst needle hay).isSome

/-- Characters stripped by Python's `str.strip()`. -/
def isPySpace (c : Char) : Bool :=
  c == ' ' || c == '\t' || c == '\n' || c == '\r' || c == Char.ofNat 11 || c == Char.ofNat 12

/-- Python `s.strip()`. -/
def pyStrip (s : Str) : Str :=
  ((s.dropWhile isPySpace).reverse.dropWhile isPySpace).reverse

/- ### Basic properties of the string model -/

theorem pyStartswith_iff (pfx s : Str) :
    pyStartswith pfx s = true ↔ ∃ t, s = pfx ++ t := by
  unfold pyStartswith
  rw [decide_eq_true_eq]
  constructor
  · intro h
    have h2 := List.take_append_drop pfx.length s
    rw [h] at h2
    exact ⟨s.drop pfx.length, h2.symm⟩
  · rintro ⟨t, rfl⟩
    exact List.take_left pfx t

theorem splitFirst_decomp (sep : Str) :
    ∀ (s pre post : Str), splitFirst sep s = some (pre, post) → s = pre ++ sep ++ post := by
  intro s
  induction s with
  | nil => intro pre post h; simp [splitFirst] at h
  | cons c cs ih =>
    intro pre post h
    rw [splitFirst] at h
    by_cases hpfx : pyStartswith sep (c :: cs) = true
    · rw [if_pos hpfx] at h
      simp only [Option.some.injEq, Prod.mk.injEq] at h
      obtain ⟨h1, h2⟩ := h
      subst h1
      subst h2
      obtain ⟨t, ht⟩ := (pyStartswith_iff sep (c :: cs)).mp hpfx
      rw [ht, List.drop_left]
      simpa using ht
    · rw [if_neg hpfx] at h
      cases hrec : splitFirst sep cs with
      | none => rw [hrec] at h; simp at h
      | some pp =>
        obtain ⟨pre', post'⟩ := pp
        rw [hrec] at h
        simp only [Option.some.injEq, Prod.mk.injEq] at h
        obtain ⟨h1, h2⟩ := h
        subst h1
        subst h2
        have hcs := ih pre' post' hrec
        rw [hcs]
        simp

theorem splitFirst_none_iff (sep : Str) (hsep : sep ≠ []) :
    ∀ s : Str, splitFirst sep s = none ↔ ∀ pre post : Str, s ≠ pre ++ sep ++ post := by
  intro s
  induction s with
  | nil =>
    constructor
    · intro _ pre post heq
      have hlen := congrArg List.length heq
      simp only [List.length_nil, List.length_append] at hlen
      exact hsep (List.length_eq_zero.mp (by omega))
    · intro _
      rfl
  | cons c cs ih =>
    rw [splitFirst]
    by_cases hpfx : pyStartswith sep (c :: cs) = true
    · rw [if_pos hpfx]
      constructor
      · intro h
        exact absurd h (Option.some_ne_none _)
      · intro hall
        obtain ⟨t, ht⟩ := (pyStartswith_iff sep (c :: cs)).mp hpfx
        exact absurd (show c :: cs = [] ++ sep ++ t by simpa using ht) (hall [] t)
    · rw [if_neg hpfx]
      cases hrec : splitFirst sep cs with
      | none =>
        constructor
        · intro _ pre post heq
          cases pre with
          | nil =>
            exact hpfx ((pyStartswith_iff sep (c :: cs)).mpr ⟨post, by simpa using heq⟩)
          | cons p ps =>
            simp only [List.cons_append, List.cons.injEq] at heq
            exact (ih.mp hrec) ps post heq.2
        · intro _
          rfl
      | some pp =>
        obtain ⟨pre', post'⟩ := pp
        constructor
        · intro h
          exact absurd h (Option.some_ne_none _)
        · intro hall
          have hcs := splitFirst_decomp sep cs pre' post' hrec
          exact absurd (show c :: cs = (c :: pre') ++ sep ++ post' by rw [hcs]; simp)
            (hall (c :: pre') post')

/- ### Claim C6: the sanitizer (`UniversalTechBlogScraper.sanitize_text`) -/

/-- `sanitize_text` from `generic_tech_blog_scraper.py`:
`text.replace("\x00", "")`, i.e. remove every null byte. -/
def sanitize_text (s : Str) : Str := s.filter (fun c => c != nullChar)

theorem sanitize_text_no_null (s : Str) : (sanitize_text s).contains nullChar = false := by
  induction s with
  | nil => rfl
  | cons c t ih =>
    by_cases hc : c = nullChar
    · simpa [sanitize_text, List.filter_cons, hc] using ih
    · have hcb : (c != nullChar) = true := by simp [bne_iff_ne, hc]
      simp only [sanitize_text, List.filter_cons, hcb, if_true] at ih ⊢
      rw [List.contains_cons]
      simp only [ih, Bool.or_false]
      simp [bne_iff_ne, beq_eq_false_iff_ne]
      exact fun h => hc h.symm

/-- C6: for every string `x`, `sanitize(sanitize(x)) = sanitize(x)`, and
`sanitize(x)` contains no null (`\x00`) characters. The sanitizer is
`UniversalTechBlogScraper.sanitize_text`, which removes every occurrence of
the null byte from its argument. -/
theorem C6_sanitize_idempotent_no_null (x : Str) :
    sanitize_text (sanitize_text x) = sanitize_text x ∧
    (sanitize_text x).contains nullChar = false := by
  constructor
  · induction x with
    | nil => rfl
    | cons c t ih =>
      by_cases hc : c = nullChar
      · simpa [sanitize_text, List.filter_cons, hc] using ih
      · have hcb : (c != nullChar) = true := by simp [bne_iff_ne, hc]
        simp only [sanitize_text, List.filter_cons, hcb, if_true] at ih ⊢
        rw [ih]
  · exact sanitize_text_no_null x

/- ### Claim C5: the extractor resolver (`UniversalTechBlogScraper._get_extractor`) -/

/-- The three extractors registered in `UniversalTechBlogScraper.__init__`,
in registration order. -/
inductive Extractor where
  | uber
  | janestreet
  | generic
deriving DecidableEq

/-- The `can_handle` predicate of each extractor, from
`generic_tech_blog_scraper.py`: Uber matches URLs containing
`"uber.com/blog"` (case-insensitively), Jane Street matches URLs containing
`"blog.janestreet.com"`, and the generic extractor matches every URL. -/
def can_handle : Extractor → Str → Bool
  | .uber, url => pyContains "uber.com/blog".toList (pyLower url)
  | .janestreet, url => pyContains "blog.janestreet.com".toList (pyLower url)
  | .generic, _ => true

/-- The registered extractor list (`self.extractors`); order encodes
precedence and the generic extractor is always last. -/
def extractors : List Extractor := [.uber, .janestreet, .generic]

/-- `UniversalTechBlogScraper._get_extractor`: return the first registered
extractor whose `can_handle` is true; the fallback return of
`self.extractors[-1]` is modelled by `getLastD`. -/
def get_extractor (url : Str) : Extractor :=
  match extractors.find? (fun e => can_handle e url) with
  | some e => e
  | none => extractors.getLastD Extractor.generic

/-- C5: for every locator, the resolver returns exactly one extractor — the
first in registration order whose `can_handle` predicate is true — resolution
always succeeds because the last registered extractor's predicate is
unconditionally true, and the generic fallback is selected if and only if no
domain-specific extractor's predicate matches the locator. -/
theorem C5_resolver_first_match (url : Str) :
    extractors.find? (fun e => can_handle e url) = some (get_extractor url) ∧
    can_handle (get_extractor url) url = true ∧
    can_handle Extractor.generic url = true ∧
    (get_extractor url = Extractor.generic ↔
      (can_handle Extractor.uber url = false ∧ can_handle Extractor.janestreet url = false)) := by
  cases h1 : pyContains "uber.com/blog".toList (pyLower url) <;>
    cases h2 : pyContains "blog.janestreet.com".toList (pyLower url) <;>
      simp_all [get_extractor, extractors, List.find?, can_handle]

/- ### The card synthesis parser (`QwenChatbot.generate_mochi_cards`,
`src/llm_utils/gen_mochi_cards.py`) -/

/-- `CARD_DELIMITER = "---"`. -/
def cardDelimiter : Str := "---".toList

/-- Newline, the separator of `card.split("\n")`. -/
def nlSep : Str := "\n".toList

/-- The literal prefix `"Front: "`. -/
def frontPfx : Str := "Front: ".toList

/-- The literal prefix `"Back: "`. -/
def backPfx : Str := "Back: ".toList

/-- `line.startswith("Front: ")`. -/
def isFrontLine (line : Str) : Bool := pyStartswith frontPfx line

/-- `line.startswith("Back: ")`. -/
def isBackLine (line : Str) : Bool := pyStartswith backPfx line

/-- `line.split("Front: ")[1]`, the value the parser records for a
`Front: ` line. -/
def frontVal (line : Str) : Str := (pySplit frontPfx line).getD 1 []

/-- `line.split("Back: ")[1]`, the value the parser records for a
`Back: ` line. -/
def backVal (line : Str) : Str := (pySplit backPfx line).getD 1 []

/-- One iteration of the `for line in lines` loop: the pending
question/answer pair is the mutable state `(question, answer)`; `none`
models the Python name being still unbound. -/
def scanLine (qa : Option Str × Option Str) (line : Str) : Option Str × Option Str :=
  if isFrontLine line then (some (frontVal line), qa.2)
  else if isBackLine line then (qa.1, some (backVal line))
  else qa

/-- The whole `for line in lines` loop. -/
def scanLines (lines : List Str) (qa : Option Str × Option Str) : Option Str × Option Str :=
  lines.foldl scanLine qa

/-- `card.split("\n")`: the lines of one delimiter-separated segment. -/
def segLines (seg : Str) : List Str := pySplit nlSep seg

/-- One card payload posted to the external store: front text, back text,
source URL and destination deck id (the fields of `create_card_payload`). -/
structure Card where
  front : Str
  back : Str
  url : Str
  deckId : Str
deriving DecidableEq

/-- The `for card_num, card in enumerate(cards)` loop over the segments of
one generator output. Returns the emitted cards, the final
question/answer state, and a crash flag: referencing `question` or
`answer` while still unbound raises `UnboundLocalError` in Python, which
aborts the loop (and the whole call). -/
def processSegs (url deckId : Str) : List Str → Option Str × Option Str →
    List Card × ((Option Str × Option Str) × Bool)
  | [], qa => ([], qa, false)
  | seg :: rest, qa =>
    match scanLines (segLines seg) qa with
    | (some q, some a) =>
      let r := processSegs url deckId rest (some q, some a)
      ({ front := q, back := a, url := url, deckId := deckId } :: r.1, r.2)
    | qa2 => ([], qa2, true)

/-- The outer `for spaced_rep_card_output in spaced_rep_card_drafts` loop;
`question`/`answer` are function-level locals in Python, so the state
threads across drafts, and a crash aborts the remaining drafts. -/
def processDrafts (url deckId : Str) : List Str → Option Str × Option Str →
    List Card × ((Option Str × Option Str) × Bool)
  | [], qa => ([], qa, false)
  | d :: rest, qa =>
    let r1 := processSegs url deckId (pySplit cardDelimiter d) qa
    if r1.2.2 then (r1.1, r1.2.1, true)
    else
      let r2 := processDrafts url deckId rest r1.2.1
      (r1.1 ++ r2.1, r2.2)

/-- `QwenChatbot.generate_mochi_cards`, abstracted over the generator: it
receives the list of generator outputs (one per context batch) and returns
the cards posted to the store together with the crash flag. -/
def generate_mochi_cards (url deckId : Str) (drafts : List Str) : List Card × Bool :=
  let r := processDrafts url deckId drafts (none, none)
  (r.1, r.2.2)

/- ### Properties of the parser -/

theorem splitFirst_of_starts (pfx L : Str) (hpfx : pfx ≠ [])
    (h1 : pyStartswith pfx L = true) :
    splitFirst pfx L = some ([], L.drop pfx.length) := by
  cases L with
  | nil =>
    simp only [pyStartswith, List.take_nil, decide_eq_true_eq] at h1
    exact absurd h1.symm hpfx
  | cons c cs =>
    rw [splitFirst, if_pos h1]

theorem pySplitAux_none (sep s : Str) (h : splitFirst sep s = none) :
    ∀ fuel, pySplitAux sep fuel s = [s] := by
  intro fuel
  cases fuel with
  | zero => rfl
  | succ k => simp only [pySplitAux, h]

theorem pySplit_starts_none (pfx L : Str) (hpfx : pfx ≠ [])
    (h1 : pyStartswith pfx L = true)
    (h2 : splitFirst pfx (L.drop pfx.length) = none) :
    pySplit pfx L = [[], L.drop pfx.length] := by
  have e1 := splitFirst_of_starts pfx L hpfx h1
  have e2 := pySplitAux_none pfx (L.drop pfx.length) h2 L.length
  simp [pySplit, pySplitAux, e1, e2]

theorem pySplit_getD_one (pfx L mid tl : Str) (hpfx : pfx ≠ [])
    (h1 : pyStartswith pfx L = true)
    (h2 : splitFirst pfx (L.drop pfx.length) = some (mid, tl)) :
    (pySplit pfx L).getD 1 [] = mid := by
  have e1 := splitFirst_of_starts pfx L hpfx h1
  obtain ⟨t, ht⟩ := (pyStartswith_iff pfx L).mp h1
  have hLlen : 1 ≤ L.length := by
    rw [ht, List.length_append]
    cases pfx with
    | nil => exact absurd rfl hpfx
    | cons p ps => simp; omega
  obtain ⟨n, hn⟩ : ∃ n, L.length = n + 1 := ⟨L.length - 1, by omega⟩
  unfold pySplit
  rw [hn]
  simp only [pySplitAux, e1, h2]
  simp [List.getD]

theorem isFrontLine_not_back (L : Str) (hf : isFrontLine L = true) :
    isBackLine L = false := by
  rw [Bool.eq_false_iff]
  intro hb
  obtain ⟨t, ht⟩ := (pyStartswith_iff frontPfx L).mp hf
  obtain ⟨t', ht'⟩ := (pyStartswith_iff backPfx L).mp hb
  rw [ht] at ht'
  simp [frontPfx, backPfx] at ht'

theorem isBackLine_not_front (L : Str) (hb : isBackLine L = true) :
    isFrontLine L = false := by
  rw [Bool.eq_false_iff]
  intro hf
  exact absurd hb (by rw [isFrontLine_not_back L hf]; simp)

theorem scanLines_fst (lines : List Str) :
    ∀ q a : Option Str, (scanLines lines (q, a)).1
      = (lines.filter isFrontLine).foldl (fun _ L => some (frontVal L)) q := by
  induction lines with
  | nil => intro q a; rfl
  | cons l ls ih =>
    intro q a
    by_cases hf : isFrontLine l = true
    · have hstep : scanLine (q, a) l = (some (frontVal l), a) := by
        simp [scanLine, hf]
      rw [scanLines, List.foldl_cons, hstep, List.filter_cons_of_pos hf, List.foldl_cons]
      exact ih (some (frontVal l)) a
    · rw [scanLines, List.foldl_cons, List.filter_cons_of_neg (by simpa using hf)]
      by_cases hb : isBackLine l = true
      · have hstep : scanLine (q, a) l = (q, some (backVal l)) := by
          simp [scanLine, hf, hb]
        rw [hstep]
        exact ih q (some (backVal l))
      · have hstep : scanLine (q, a) l = (q, a) := by
          simp [scanLine, hf, hb]
        rw [hstep]
        exact ih q a

theorem scanLines_snd (lines : List Str) :
    ∀ q a : Option Str, (scanLines lines (q, a)).2
      = (lines.filter isBackLine).foldl (fun _ L => some (backVal L)) a := by
  induction lines with
  | nil => intro q a; rfl
  | cons l ls ih =>
    intro q a
    by_cases hf : isFrontLine l = true
    · have hstep : scanLine (q, a) l = (some (frontVal l), a) := by
        simp [scanLine, hf]
      rw [scanLines, List.foldl_cons, hstep,
          List.filter_cons_of_neg (by simp [isFrontLine_not_back l hf])]
      exact ih (some (frontVal l)) a
    · by_cases hb : isBackLine l = true
      · have hstep : scanLine (q, a) l = (q, some (backVal l)) := by
          simp [scanLine, hf, hb]
        rw [scanLines, List.foldl_cons, hstep, List.filter_cons_of_pos hb, List.foldl_cons]
        exact ih q (some (backVal l))
      · have hstep : scanLine (q, a) l = (q, a) := by
          simp [scanLine, hf, hb]
        rw [scanLines, List.foldl_cons, hstep, List.filter_cons_of_neg (by simpa using hb)]
        exact ih q a

/-- The front line of a segment: head of the lines satisfying
`line.startswith("Front: ")`. -/
def segFrontLine (seg : Str) : Str := ((segLines seg).filter isFrontLine).headD []

/-- The back line of a segment. -/
def segBackLine (seg : Str) : Str := ((segLines seg).filter isBackLine).headD []

/-- The front line's text with the `"Front: "` prefix removed — the value
the spec calls "the segment's Front line contents with the prefix removed". -/
def segFrontContent (seg : Str) : Str := (segFrontLine seg).drop frontPfx.length

/-- The back line's text with the `"Back: "` prefix removed. -/
def segBackContent (seg : Str) : Str := (segBackLine seg).drop backPfx.length

/-- A segment is well formed when it contains exactly one line beginning
with `"Front: "` and exactly one line beginning with `"Back: "` — the
hypothesis of the claimed parser property. -/
def wellFormedSeg (seg : Str) : Bool :=
  decide ((segLines seg).filter isFrontLine = [segFrontLine seg])
  && decide ((segLines seg).filter isBackLine = [segBackLine seg])

/-- A well-formed segment whose front/back contents do not repeat the
`"Front: "` / `"Back: "` prefixes (the extra condition forced by the
`line.split(prefix)[1]` behavior in the source). -/
def goodSeg (seg : Str) : Bool :=
  wellFormedSeg seg
  && (splitFirst frontPfx ((segFrontLine seg).drop frontPfx.length)).isNone
  && (splitFirst backPfx ((segBackLine seg).drop backPfx.length)).isNone

/-- The card the claim predicts for a segment: front/back are the segment's
line contents with the prefixes removed, tagged with the locator and deck. -/
def expectedCard (url deckId seg : Str) : Card :=
  { front := segFrontContent seg, back := segBackContent seg, url := url, deckId := deckId }

theorem scanLines_of_good (seg : Str) (hg : goodSeg seg = true)
    (qa : Option Str × Option Str) :
    scanLines (segLines seg) qa
      = (some (segFrontContent seg), some (segBackContent seg)) := by
  obtain ⟨q, a⟩ := qa
  simp only [goodSeg, wellFormedSeg, Bool.and_eq_true, decide_eq_true_eq,
    Option.isNone_iff_eq_none] at hg
  obtain ⟨⟨⟨hF, hB⟩, hFn⟩, hBn⟩ := hg
  have hFmem : isFrontLine (segFrontLine seg) = true := by
    have hmem : segFrontLine seg ∈ (segLines seg).filter isFrontLine := by
      rw [hF]; simp
    exact (List.mem_filter.mp hmem).2
  have hBmem : isBackLine (segBackLine seg) = true := by
    have hmem : segBackLine seg ∈ (segLines seg).filter isBackLine := by
      rw [hB]; simp
    exact (List.mem_filter.mp hmem).2
  have h1 : (scanLines (segLines seg) (q, a)).1 = some (segFrontContent seg) := by
    rw [scanLines_fst, hF, List.foldl_cons, List.foldl_nil]
    rw [frontVal, pySplit_starts_none frontPfx _ (by decide) hFmem hFn]
    rfl
  have h2 : (scanLines (segLines seg) (q, a)).2 = some (segBackContent seg) := by
    rw [scanLines_snd, hB, List.foldl_cons, List.foldl_nil]
    rw [backVal, pySplit_starts_none backPfx _ (by decide) hBmem hBn]
    rfl
  rw [← h1, ← h2]

theorem processSegs_of_good (url deckId : Str) :
    ∀ (segs : List Str) (qa : Option Str × Option Str),
      (∀ seg ∈ segs, goodSeg seg = true) →
      ∃ qa', processSegs url deckId segs qa
        = (segs.map (expectedCard url deckId), qa', false) := by
  intro segs
  induction segs with
  | nil => intro qa _; exact ⟨qa, rfl⟩
  | cons seg rest ih =>
    intro qa h
    have hseg := h seg (List.mem_cons_self seg rest)
    have hrest : ∀ s ∈ rest, goodSeg s = true := fun s hs => h s (List.mem_cons_of_mem _ hs)
    obtain ⟨qa', hqa'⟩ := ih (some (segFrontContent seg), some (segBackContent seg)) hrest
    refine ⟨qa', ?_⟩
    rw [processSegs, scanLines_of_good seg hseg qa]
    simp only [hqa', List.map_cons]
    rfl

/- ### Claims C1, C2, C10: the card synthesis parser -/

/-- C1 (counterexample to the claim as stated): the single-segment output
`"Front: a Front: b\nBack: c"` is a delimiter-separated sequence of one
segment with exactly one `Front: ` line and one `Back: ` line, but the
parser records front `"a "` — the text up to the second occurrence of
`"Front: "` — instead of the full line content `"a Front: b"` with the
prefix removed, so the emitted card's front does not equal the segment's
Front line content minus the prefix. -/
theorem C1_counterexample :
    (pySplit cardDelimiter "Front: a Front: b\nBack: c".toList).all wellFormedSeg = true
    ∧ (generate_mochi_cards "http://src".toList "deck1".toList
        ["Front: a Front: b\nBack: c".toList]).1.map Card.front = ["a ".toList]
    ∧ (pySplit cardDelimiter "Front: a Front: b\nBack: c".toList).map segFrontContent
        = ["a Front: b".toList]
    ∧ ("a ".toList : Str) ≠ "a Front: b".toList := by
  refine ⟨by decide, by decide, by decide, by decide⟩

/-- C1 (amended): for every generator output whose delimiter-split segments
each contain exactly one `Front: ` line and one `Back: ` line, and whose
front/back contents do not themselves contain the `"Front: "` / `"Back: "`
prefix again, the parser emits exactly N cards (one per segment, in
order), the i-th card's front/back being the i-th segment's line contents
with the prefixes removed, each card tagged with the given source locator
and deck id. -/
theorem C1_parser_wellformed (url deckId out : Str)
    (h : (pySplit cardDelimiter out).all goodSeg = true) :
    generate_mochi_cards url deckId [out]
      = ((pySplit cardDelimiter out).map (expectedCard url deckId), false)
    ∧ (generate_mochi_cards url deckId [out]).1.length
      = (pySplit cardDelimiter out).length := by
  have hall : ∀ seg ∈ pySplit cardDelimiter out, goodSeg seg = true := by
    intro seg hs
    exact List.all_eq_true.mp h seg hs
  obtain ⟨qa', hps⟩ := processSegs_of_good url deckId (pySplit cardDelimiter out)
    (none, none) hall
  have h1 : generate_mochi_cards url deckId [out]
      = ((pySplit cardDelimiter out).map (expectedCard url deckId), false) := by
    rw [generate_mochi_cards]
    simp only [processDrafts, hps]
    simp [processDrafts]
  refine ⟨h1, ?_⟩
  rw [h1]
  simp

/-- Witness for C1: a two-segment output satisfying the hypotheses, on
which the parser emits exactly the two predicted cards. -/
theorem C1_parser_wellformed_witness :
    (pySplit cardDelimiter "Front: a\nBack: b\n---\nFront: c\nBack: d".toList).all goodSeg
      = true
    ∧ (generate_mochi_cards "http://src".toList "deck1".toList
          ["Front: a\nBack: b\n---\nFront: c\nBack: d".toList]
        = ((pySplit cardDelimiter "Front: a\nBack: b\n---\nFront: c\nBack: d".toList).map
            (expectedCard "http://src".toList "deck1".toList), false)
      ∧ (generate_mochi_cards "http://src".toList "deck1".toList
            ["Front: a\nBack: b\n---\nFront: c\nBack: d".toList]).1.length
        = (pySplit cardDelimiter "Front: a\nBack: b\n---\nFront: c\nBack: d".toList).length) :=
  ⟨by decide, C1_parser_wellformed _ _ _ (by decide)⟩

/-- C2 (evidence of the code bug): on the output
`"Front: A\nBack: B\n---\nno card fields"`, whose second segment sets
neither a front nor a back value, the parser emits a second card that
duplicates the previous segment's values instead of skipping the segment;
and on the output `"no card fields"` alone, where no previous values
exist, the parser crashes (UnboundLocalError) instead of continuing. -/
theorem C2_stale_card_evidence :
    generate_mochi_cards "http://src".toList "deck1".toList
        ["Front: A\nBack: B\n---\nno card fields".toList]
      = ([{ front := "A".toList, back := "B".toList,
            url := "http://src".toList, deckId := "deck1".toList },
          { front := "A".toList, back := "B".toList,
            url := "http://src".toList, deckId := "deck1".toList }], false)
    ∧ generate_mochi_cards "http://src".toList "deck1".toList
        ["no card fields".toList]
      = ([], true) := by
  refine ⟨by decide, by decide⟩

/-- C10: when a `Front: ` line's remaining text itself contains the literal
substring `"Front: "` again, the recorded front value is only the text
between the first and second occurrences of the prefix (formalised by
`splitFirst`, which returns the text before the leftmost occurrence), not
the full remainder of the line; symmetrically for `"Back: "`. -/
theorem C10_value_between_occurrences (fl bl fmid ftl bmid btl : Str)
    (hf1 : pyStartswith frontPfx fl = true)
    (hf2 : splitFirst frontPfx (fl.drop frontPfx.length) = some (fmid, ftl))
    (hb1 : pyStartswith backPfx bl = true)
    (hb2 : splitFirst backPfx (bl.drop backPfx.length) = some (bmid, btl)) :
    scanLines [fl] (none, none) = (some fmid, none)
    ∧ scanLines [bl] (none, none) = (none, some bmid)
    ∧ fmid ≠ fl.drop frontPfx.length
    ∧ bmid ≠ bl.drop backPfx.length := by
  have hfv : frontVal fl = fmid :=
    pySplit_getD_one frontPfx fl fmid ftl (by decide) hf1 hf2
  have hbv : backVal bl = bmid :=
    pySplit_getD_one backPfx bl bmid btl (by decide) hb1 hb2
  refine ⟨?_, ?_, ?_, ?_⟩
  · show scanLine (none, none) fl = (some fmid, none)
    rw [scanLine, if_pos (show isFrontLine fl = true from hf1), hfv]
  · show scanLine (none, none) bl = (none, some bmid)
    rw [scanLine, if_neg (by simp [isBackLine_not_front bl hb1]),
      if_pos (show isBackLine bl = true from hb1), hbv]
  · intro heq
    have hd := splitFirst_decomp frontPfx (fl.drop frontPfx.length) fmid ftl hf2
    rw [← heq] at hd
    have hlen := congrArg List.length hd
    simp [frontPfx, List.length_append] at hlen
  · intro heq
    have hd := splitFirst_decomp backPfx (bl.drop backPfx.length) bmid btl hb2
    rw [← heq] at hd
    have hlen := congrArg List.length hd
    simp [backPfx, List.length_append] at hlen

/-- Witness for C10 at the line `"Front: a Front: b"` (and
`"Back: x Back: y"`): the recorded values are `"a "` and `"x "`. -/
theorem C10_value_between_occurrences_witness :
    pyStartswith frontPfx "Front: a Front: b".toList = true
    ∧ splitFirst frontPfx ("Front: a Front: b".toList.drop frontPfx.length)
        = some ("a ".toList, "b".toList)
    ∧ pyStartswith backPfx "Back: x Back: y".toList = true
    ∧ splitFirst backPfx ("Back: x Back: y".toList.drop backPfx.length)
        = some ("x ".toList, "y".toList)
    ∧ (scanLines ["Front: a Front: b".toList] (none, none) = (some "a ".toList, none)
      ∧ scanLines ["Back: x Back: y".toList] (none, none) = (none, some "x ".toList)
      ∧ ("a ".toList : Str) ≠ "Front: a Front: b".toList.drop frontPfx.length
      ∧ ("x ".toList : Str) ≠ "Back: x Back: y".toList.drop backPfx.length) :=
  ⟨by decide, by decide, by decide, by decide,
    C10_value_between_occurrences "Front: a Front: b".toList "Back: x Back: y".toList
      "a ".toList "b".toList "x ".toList "y".toList
      (by decide) (by decide) (by decide) (by decide)⟩

/- ### Claims C3, C4: the context batcher
(`QwenChatbot._split_context_into_batches`, `src/llm_utils/gen_mochi_cards.py`) -/

/-- Worker for `chunkList`, modelling `for i in range(0, len(tokens), B)`
with `tokens[i:i+B]`; the fuel is the initial list length, which is always
sufficient for a positive step `B`. -/
def chunkListAux (B : Nat) : Nat → List Nat → List (List Nat)
  | 0, _ => []
  | _ + 1, [] => []
  | fuel + 1, x :: xs => (x :: xs).take B :: chunkListAux B fuel ((x :: xs).drop B)

/-- The chunking loop of `_split_context_into_batches`: contiguous,
non-overlapping windows of `B` tokens, the final window possibly shorter. -/
def chunkList (B : Nat) (l : List Nat) : List (List Nat) := chunkListAux B l.length l

/-- `QwenChatbot._split_context_into_batches`, abstracted over the external
tokenizing oracle: `encode` is `tokenizer.encode`, `decode` is
`tokenizer.decode`, `model_max_length` is `tokenizer.model_max_length`.
If the token count is within the model maximum the original `context` is
returned as the single batch; otherwise the token stream is chunked with
step `int(model_max_length / 4)` and each chunk is decoded and stripped. -/
def split_context_into_batches (encode : Str → List Nat) (decode : List Nat → Str)
    (model_max_length : Nat) (context : Str) : List Str :=
  if (encode context).length ≤ model_max_length then [context]
  else
    let tokens := encode context
    let num_tokens_in_batch := model_max_length / 4
    (chunkList num_tokens_in_batch tokens).map (fun c => pyStrip (decode c))

/-- A concrete tokenizing oracle for witnesses: one token per character. -/
def encChar (s : Str) : List Nat := s.map Char.toNat

/-- The matching decoder for `encChar`. -/
def decChar (ts : List Nat) : Str := ts.map Char.ofNat

theorem chunkListAux_flatten (B : Nat) (hB : 1 ≤ B) :
    ∀ (fuel : Nat) (l : List Nat), l.length ≤ fuel →
      (chunkListAux B fuel l).flatten = l := by
  intro fuel
  induction fuel with
  | zero =>
    intro l hl
    have : l = [] := List.length_eq_zero.mp (Nat.le_zero.mp hl)
    subst this
    rfl
  | succ k ih =>
    intro l hl
    cases l with
    | nil => rfl
    | cons x xs =>
      simp only [List.length_cons] at hl
      have hdrop : ((x :: xs).drop B).length ≤ k := by
        rw [List.length_drop, List.length_cons]
        omega
      rw [chunkListAux, List.flatten_cons, ih _ hdrop, List.take_append_drop]

theorem chunkListAux_le (B : Nat) (hB : 1 ≤ B) :
    ∀ (fuel : Nat) (l : List Nat), l.length ≤ fuel →
      ∀ c ∈ chunkListAux B fuel l, c.length ≤ B := by
  intro fuel
  induction fuel with
  | zero =>
    intro l hl c hc
    simp [chunkListAux] at hc
  | succ k ih =>
    intro l hl c hc
    cases l with
    | nil => simp [chunkListAux] at hc
    | cons x xs =>
      simp only [List.length_cons] at hl
      have hdrop : ((x :: xs).drop B).length ≤ k := by
        rw [List.length_drop, List.length_cons]
        omega
      rw [chunkListAux] at hc
      rcases List.mem_cons.mp hc with h | h
      · subst h
        simpa using List.length_take_le B (x :: xs)
      · exact ih _ hdrop c h

theorem chunkListAux_length (B : Nat) (hB : 1 ≤ B) :
    ∀ (fuel : Nat) (l : List Nat), l.length ≤ fuel →
      (chunkListAux B fuel l).length = (l.length + B - 1) / B := by
  intro fuel
  induction fuel with
  | zero =>
    intro l hl
    have : l = [] := List.length_eq_zero.mp (Nat.le_zero.mp hl)
    subst this
    simp only [chunkListAux, List.length_nil]
    exact (Nat.div_eq_of_lt (by omega)).symm
  | succ k ih =>
    intro l hl
    cases l with
    | nil =>
      simp only [chunkListAux, List.length_nil]
      exact (Nat.div_eq_of_lt (by omega)).symm
    | cons x xs =>
      simp only [List.length_cons] at hl
      have hdrop : ((x :: xs).drop B).length ≤ k := by
        rw [List.length_drop, List.length_cons]
        omega
      rw [chunkListAux, List.length_cons, ih _ hdrop, List.length_drop, List.length_cons]
      rcases le_or_lt (xs.length + 1) B with hle | hlt
      · have h1 : xs.length + 1 - B = 0 := by omega
        rw [h1]
        have h2 : (0 + B - 1) / B = 0 := Nat.div_eq_of_lt (by omega)
        rw [h2]
        have h3 : xs.length + 1 + B - 1 = xs.length + B := by omega
        rw [h3, Nat.add_div_right _ (by omega : 0 < B),
          Nat.div_eq_of_lt (by omega : xs.length < B)]
      · have h3 : xs.length + 1 + B - 1 = (xs.length + 1 - B + B - 1) + B := by omega
        rw [h3, Nat.add_div_right _ (by omega : 0 < B)]

/-- C3 (counterexample to the claim as stated): with a one-token-per-
character oracle, model maximum 10 and input `" hi "` (4 tokens ≤ 10), the
batcher returns the single batch `" hi "` — the original text, not the
whitespace-trimmed text `"hi"` the claim requires. The code path
`return [context]` performs no `.strip()`. -/
theorem C3_counterexample :
    (encChar " hi ".toList).length ≤ 10
    ∧ split_context_into_batches encChar decChar 10 " hi ".toList = [" hi ".toList]
    ∧ pyStrip " hi ".toList = "hi".toList
    ∧ (" hi ".toList : Str) ≠ "hi".toList := by
  refine ⟨by decide, by decide, by decide, by decide⟩

/-- C3 (amended): for every input text whose token count (per the
tokenizing oracle) is at most the model's maximum context tokens, the
Context Batcher returns exactly one batch, and that batch's text equals
the original input text unchanged (the single-batch path does not
whitespace-trim). -/
theorem C3_single_batch (encode : Str → List Nat) (decode : List Nat → Str)
    (model_max_length : Nat) (context : Str)
    (h : (encode context).length ≤ model_max_length) :
    split_context_into_batches encode decode model_max_length context = [context] := by
  rw [split_context_into_batches, if_pos h]

/-- Witness for the amended C3 at the counterexample's input. -/
theorem C3_single_batch_witness :
    (encChar " hi ".toList).length ≤ 10
    ∧ split_context_into_batches encChar decChar 10 " hi ".toList = [" hi ".toList] :=
  ⟨by decide, C3_single_batch encChar decChar 10 " hi ".toList (by decide)⟩

/-- C4: for every input text whose token count exceeds the model maximum
(and a model maximum of at least 4, so that the chunk size
`B = floor(maxModelTokens/4)` is a positive size), the batcher partitions
the full token stream into contiguous non-overlapping chunks of size `B`
(final chunk may be shorter) — the chunks concatenate to the original
token sequence, each has at most `B` tokens — and it produces exactly
`ceil(tokenCount / B)` batches in original order, one decoded-and-trimmed
batch per chunk. -/
theorem C4_batcher_partition (encode : Str → List Nat) (decode : List Nat → Str)
    (model_max_length : Nat) (context : Str)
    (h1 : model_max_length < (encode context).length)
    (h2 : 4 ≤ model_max_length) :
    split_context_into_batches encode decode model_max_length context
      = (chunkList (model_max_length / 4) (encode context)).map (fun c => pyStrip (decode c))
    ∧ (chunkList (model_max_length / 4) (encode context)).flatten = encode context
    ∧ (chunkList (model_max_length / 4) (encode context)).all
        (fun c => decide (c.length ≤ model_max_length / 4)) = true
    ∧ (chunkList (model_max_length / 4) (encode context)).length
      = ((encode context).length + model_max_length / 4 - 1) / (model_max_length / 4)
    ∧ (split_context_into_batches encode decode model_max_length context).length
      = ((encode context).length + model_max_length / 4 - 1) / (model_max_length / 4) := by
  have hB : 1 ≤ model_max_length / 4 := by
    have := Nat.div_le_div_right (c := 4) h2
    simpa using this
  have hfirst : split_context_into_batches encode decode model_max_length context
      = (chunkList (model_max_length / 4) (encode context)).map
          (fun c => pyStrip (decode c)) := by
    rw [split_context_into_batches, if_neg (by omega)]
  have hflat := chunkListAux_flatten (model_max_length / 4) hB
    (encode context).length (encode context) (le_refl _)
  have hle := chunkListAux_le (model_max_length / 4) hB
    (encode context).length (encode context) (le_refl _)
  have hlen := chunkListAux_length (model_max_length / 4) hB
    (encode context).length (encode context) (le_refl _)
  refine ⟨hfirst, hflat, ?_, hlen, ?_⟩
  · rw [List.all_eq_true]
    intro c hc
    exact decide_eq_true (hle c hc)
  · rw [hfirst, List.length_map]
    exact hlen

/-- Witness for C4: a 6-token text with model maximum 4 (chunk size 1)
yields 6 batches. -/
theorem C4_batcher_partition_witness :
    4 < (encChar "abcdef".toList).length
    ∧ 4 ≤ 4
    ∧ (split_context_into_batches encChar decChar 4 "abcdef".toList
        = (chunkList (4 / 4) (encChar "abcdef".toList)).map (fun c => pyStrip (decChar c))
      ∧ (chunkList (4 / 4) (encChar "abcdef".toList)).flatten = encChar "abcdef".toList
      ∧ (chunkList (4 / 4) (encChar "abcdef".toList)).all
          (fun c => decide (c.length ≤ 4 / 4)) = true
      ∧ (chunkList (4 / 4) (encChar "abcdef".toList)).length
        = ((encChar "abcdef".toList).length + 4 / 4 - 1) / (4 / 4)
      ∧ (split_context_into_batches encChar decChar 4 "abcdef".toList).length
        = ((encChar "abcdef".toList).length + 4 / 4 - 1) / (4 / 4)) :=
  ⟨by decide, by decide,
    C4_batcher_partition encChar decChar 4 "abcdef".toList (by decide) (by decide)⟩

/- ### The scraper data model (`generic_tech_blog_scraper.py`) -/

/-- One entry of a `data["content"]` list: `{"type": tag_name, "text": text}`. -/
structure BlockData where
  type : Str
  text : Str
deriving DecidableEq

/-- One entry of a `data["images"]` list; `alt`/`caption` are `none` when
the producing code did not put the key in the dict. -/
structure StoredImg where
  url : Str
  alt : Option Str
  caption : Option Str
deriving DecidableEq

/-- The `data` dictionary built by the extractors and consumed by
`_save_data`; `none` models an absent key (or a key set to `None`, which
every consumer treats identically through `data.get` truthiness). -/
structure GData where
  url : Str := []
  domain : Str := []
  extractor : Option Str := none
  title : Option Str := none
  author : Option Str := none
  date : Option Str := none
  description : Option Str := none
  content_raw : Option Str := none
  authors : Option (List Str) := none
  publish_date : Option Str := none
  top_image : Option Str := none
  content : Option (List BlockData) := none
  images : Option (List StoredImg) := none
deriving DecidableEq

/-- Python truthiness of an optional list value: absent and `[]` are falsy. -/
def pyTruthyList {α : Type} : Option (List α) → Bool
  | none => false
  | some l => !l.isEmpty

/- ### Claim C7: the normalizer (`UniversalTechBlogScraper._save_data`) -/

/-- The characters removed from the title by
`re.sub(r'[<>:"/\\|?*]', "", data["title"])`. -/
def RESERVED_CHARS : Str := "<>:\"/\\|?*".toList

/-- The safe-filename derivation in `_save_data`: strip reserved characters,
replace spaces with underscores, truncate to 100 characters, then
`sanitize_text`; when the title is falsy the fallback
`f"{parsed.netloc}_{int(time.time())}"` (an external value) is used as is. -/
def make_filename_base (title : Option Str) (fallback : Str) : Str :=
  if pyTruthy title then
    sanitize_text ((((title.getD []).filter
      (fun c => !(RESERVED_CHARS.contains c))).map
        (fun c => if c = ' ' then '_' else c)).take 100)
  else fallback

/-- Python `int(c)` on a single character: digits only, otherwise a
`ValueError`. -/
def digitToNat (c : Char) : Option Nat :=
  if '0' ≤ c ∧ c ≤ '9' then some (c.toNat - 48) else none

/-- The per-block rendering of the content loop in `_save_data`:
`h<N>` renders as `N` hash marks, `p` as bare text, `blockquote` with a
`> ` prefix, `pre`/`code` fenced, anything else as bare text; each block is
followed by a blank line. `none` models the `ValueError` that
`int(level)` raises when an `h`-tag's second character is not a digit. -/
def renderBlock (b : BlockData) : Option Str :=
  if pyStartswith "h".toList b.type then
    match (if b.type.length > 1 then digitToNat (b.type.getD 1 ' ') else some 2) with
    | some lv => some (List.replicate lv '#' ++ " ".toList ++ b.text ++ "\n\n".toList)
    | none => none
  else if b.type = "p".toList then some (b.text ++ "\n\n".toList)
  else if b.type = "blockquote".toList then some ("> ".toList ++ b.text ++ "\n\n".toList)
  else if b.type = "pre".toList ∨ b.type = "code".toList then
    some ("```\n".toList ++ b.text ++ "\n```\n\n".toList)
  else some (b.text ++ "\n\n".toList)

/-- The whole `for block in data["content"]` loop. -/
def renderBlocks : List BlockData → Option Str
  | [] => some []
  | b :: rest =>
    match renderBlock b, renderBlocks rest with
    | some s, some r => some (s ++ r)
    | _, _ => none

/-- Decimal rendering of the 1-based image index. -/
def natStr (n : Nat) : Str := (Nat.repr n).toList

/-- The `for idx, img in enumerate(data["images"], 1)` loop. -/
def renderImages : List StoredImg → Nat → Str
  | [], _ => []
  | im :: rest, idx =>
    natStr idx ++ ". ".toList ++ im.url ++ "\n".toList
    ++ (match im.caption with
        | some cap => if cap.isEmpty then [] else "   Caption: ".toList ++ cap ++ "\n".toList
        | none => [])
    ++ "\n".toList
    ++ renderImages rest (idx + 1)

/-- The full Markdown text written by `_save_data` (the persisted rendered
artifact): title heading (sanitized), optional author and date lines,
source and extractor lines, a rule, then content blocks or raw content,
then the image list. Only the title passes through `sanitize_text`. -/
def save_markdown (d : GData) : Option Str :=
  match (if pyTruthyList d.content then renderBlocks (d.content.getD []) else some []) with
  | none => none
  | some blocksPart =>
    some (
      "# ".toList ++ sanitize_text (d.title.getD "Untitled".toList) ++ "\n\n".toList
      ++ (if pyTruthy d.author then
            "**Author:** ".toList ++ d.author.getD [] ++ "\n\n".toList else [])
      ++ (if pyTruthy d.date then
            "**Date:** ".toList ++ d.date.getD [] ++ "\n\n".toList else [])
      ++ "**Source:** ".toList ++ d.url ++ "\n\n".toList
      ++ "**Extracted by:** ".toList ++ d.extractor.getD "Unknown".toList ++ "\n\n".toList
      ++ "---\n\n".toList
      ++ blocksPart
      ++ (if pyTruthyList d.content then []
          else if pyTruthy d.content_raw then d.content_raw.getD [] else [])
      ++ (if pyTruthyList d.images then
            "\n---\n\n## Images\n\n".toList ++ renderImages (d.images.getD []) 1
          else []))

/-- C7 (counterexample to the claim as stated): a null byte in the author
field is written verbatim into the persisted Markdown artifact —
`_save_data` sanitizes only the filename and the title, not the other
text fields. -/
theorem C7_counterexample :
    (save_markdown { url := "http://x".toList
                     extractor := some "GenericExtractor".toList
                     title := some "T".toList
                     author := some ("A".toList ++ [nullChar] ++ "B".toList) }).map
      (fun s => s.contains nullChar) = some true := by
  decide

/-- C7 (amended): during normalization only the derived filename and the
rendered title field are sanitized; the filename never contains a null
byte (given a null-free fallback for the untitled case), and neither does
the rendered title text, but null bytes in the author, date, content and
image fields are not stripped and reach the persisted Markdown. -/
theorem C7_filename_title_sanitized (t : Option Str) (fallback : Str) (d : GData)
    (hfb : fallback.contains nullChar = false) :
    (make_filename_base t fallback).contains nullChar = false
    ∧ (sanitize_text (d.title.getD "Untitled".toList)).contains nullChar = false := by
  constructor
  · rw [make_filename_base]
    by_cases ht : pyTruthy t = true
    · rw [if_pos ht]
      exact sanitize_text_no_null _
    · rw [if_neg ht]
      exact hfb
  · exact sanitize_text_no_null _

/-- Witness for the amended C7. -/
theorem C7_filename_title_sanitized_witness :
    ("site_123".toList : Str).contains nullChar = false
    ∧ ((make_filename_base (some "a b: c".toList) "site_123".toList).contains nullChar
        = false
      ∧ (sanitize_text ((some "T".toList : Option Str).getD
          "Untitled".toList)).contains nullChar = false) :=
  ⟨by decide,
    C7_filename_title_sanitized (some "a b: c".toList) "site_123".toList
      { title := some "T".toList } (by decide)⟩

/- ### Claim C8: the generic extractor (`GenericExtractor.extract`) -/

/-- Result of `trafilatura.extract_metadata(html)`: each attribute may be
`None`. -/
structure TrafMeta where
  title : Option Str := none
  author : Option Str := none
  date : Option Str := none
  description : Option Str := none
deriving DecidableEq

/-- Results of the trafilatura collaborator: `extracted` is
`trafilatura.extract(html, ...)` (possibly `None`), `metadata` is
`trafilatura.extract_metadata(html)`. -/
structure TrafResult where
  extracted : Option Str := none
  metadata : Option TrafMeta := none
deriving DecidableEq

/-- A parsed `newspaper.Article` after `download` and `parse`; `none` at
the use site models the exception path of the `try` block. -/
structure NewsArticle where
  title : Str
  authors : List Str
  publish_date : Option Str
  text : Str
  images : List Str
  top_image : Str
deriving DecidableEq

/-- One element found by the tier-3 `article.find_all([...])` call: its
tag name and its `get_text(strip=True)` result. -/
structure HeurElem where
  name : Str
  text : Str
deriving DecidableEq

/-- One `img` tag found in the tier-3 container: `src`, `data-src`, `alt`. -/
structure HeurImg where
  src : Option Str
  dataSrc : Option Str
  alt : Str
deriving DecidableEq

/-- The BeautifulSoup lookups tier 3 performs: the text of the title-tag
chain (`h1` / `og:title` meta / `title`, `none` when no tag matched) and
the main-content container (its collected elements and image tags,
`none` when the `soup.find` chain matched nothing). -/
structure SoupView where
  titleText : Option Str := none
  container : Option (List HeurElem × List HeurImg) := none
deriving DecidableEq

/-- Python `a or b` for optional strings (first truthy operand). -/
def pyOr (a b : Option Str) : Option Str := if pyTruthy a then a else b

/-- `any(skip in img_url.lower() for skip in ["icon", "logo", "avatar",
"pixel"])`. -/
def boilerplateUrl (u : Str) : Bool :=
  pyContains "icon".toList (pyLower u) || pyContains "logo".toList (pyLower u)
  || pyContains "avatar".toList (pyLower u) || pyContains "pixel".toList (pyLower u)

/-- The initial `data` dictionary of `GenericExtractor.extract`. -/
def gInit (url domain : Str) : GData :=
  { url := url
    domain := domain
    extractor := some "GenericExtractor".toList }

/-- Tier 1 of `GenericExtractor.extract` (trafilatura): when extraction
produced truthy text, store it as `content_raw` and copy the metadata
attributes (possibly `None`) into title/author/date/description. -/
def tier1_trafilatura (hasTraf : Bool) (tr : TrafResult) (d : GData) : GData :=
  if hasTraf then
    if pyTruthy tr.extracted then
      let d1 := { d with content_raw := tr.extracted }
      match tr.metadata with
      | some m =>
        { d1 with title := m.title
                  author := m.author
                  date := m.date
                  description := m.description }
      | none => d1
    else d
  else d

/-- Tier-2 step `if not data.get("title"): data["title"] = article.title`. -/
def t2_title (a : NewsArticle) (d : GData) : GData :=
  if pyTruthy d.title then d else { d with title := some a.title }

/-- Tier-2 step `if not data.get("author"): data["authors"] =
article.authors` (note the key mismatch: it checks `author` but writes
`authors`). -/
def t2_authors (a : NewsArticle) (d : GData) : GData :=
  if pyTruthy d.author then d else { d with authors := some a.authors }

/-- Tier-2 step `if not data.get("date"): data["publish_date"] = ...`. -/
def t2_date (a : NewsArticle) (d : GData) : GData :=
  if pyTruthy d.date then d else { d with publish_date := a.publish_date }

/-- Tier-2 step `if article.text and not data.get("content_raw"):
data["content_raw"] = article.text`. -/
def t2_text (a : NewsArticle) (d : GData) : GData :=
  if !a.text.isEmpty && !(pyTruthy d.content_raw) then
    { d with content_raw := some a.text }
  else d

/-- Tier-2 step `if article.images: data["images"] = [{"url": u} ...]`
(an unconditional assignment — no absence check). -/
def t2_images (a : NewsArticle) (d : GData) : GData :=
  if !a.images.isEmpty then
    { d with images := some (a.images.map (fun u => StoredImg.mk u none none)) }
  else d

/-- Tier-2 step `if article.top_image: data["top_image"] = ...`. -/
def t2_top (a : NewsArticle) (d : GData) : GData :=
  if !a.top_image.isEmpty then { d with top_image := some a.top_image } else d

/-- Tier 2 of `GenericExtractor.extract` (newspaper3k): the six steps of
the `try` block in source order; `art = none` models the exception path. -/
def tier2_newspaper (hasNews : Bool) (art : Option NewsArticle) (d : GData) : GData :=
  if hasNews then
    match art with
    | none => d
    | some a => t2_top a (t2_images a (t2_text a (t2_date a (t2_authors a (t2_title a d)))))
  else d

/-- The title part of tier 3: set the title from the soup title chain only
when no title is present. -/
def tier3_title (sv : SoupView) (d : GData) : GData :=
  if pyTruthy d.title then d
  else
    match sv.titleText with
    | some t => { d with title := some t }
    | none => d

/-- The container part of tier 3: collect blocks longer than 20
characters and non-boilerplate images from the heuristic container and
store whichever lists are non-empty. -/
def tier3_body (sv : SoupView) (d : GData) : GData :=
  match sv.container with
  | none => d
  | some (elems, imgs) =>
    let content_blocks := (elems.filter
        (fun e => !e.text.isEmpty && decide (20 < e.text.length))).map
      (fun e => BlockData.mk e.name e.text)
    let d2 := if !content_blocks.isEmpty then { d with content := some content_blocks } else d
    let imgList := imgs.filterMap (fun im =>
      match pyOr im.src im.dataSrc with
      | some u =>
        if !u.isEmpty && !(boilerplateUrl u) then some (StoredImg.mk u (some im.alt) none)
        else none
      | none => none)
    if !imgList.isEmpty then { d2 with images := some imgList } else d2

/-- Tier 3 of `GenericExtractor.extract` (heuristic DOM fallback), guarded
by `if not data.get("content_raw")`. -/
def tier3_heuristic (sv : SoupView) (d : GData) : GData :=
  if pyTruthy d.content_raw then d else tier3_body sv (tier3_title sv d)

/-- `GenericExtractor.extract`, abstracted over the three collaborators:
the three tiers run in order on the shared `data` dictionary. -/
def genericExtract (hasTraf hasNews : Bool) (url domain : Str) (tr : TrafResult)
    (art : Option NewsArticle) (sv : SoupView) : GData :=
  tier3_heuristic sv (tier2_newspaper hasNews art
    (tier1_trafilatura hasTraf tr (gInit url domain)))

theorem t2_title_keeps (a : NewsArticle) (d : GData) :
    (t2_title a d).author = d.author ∧ (t2_title a d).date = d.date
    ∧ (t2_title a d).content_raw = d.content_raw ∧ (t2_title a d).content = d.content := by
  unfold t2_title
  split_ifs <;> exact ⟨rfl, rfl, rfl, rfl⟩

theorem t2_title_of_truthy (a : NewsArticle) (d : GData)
    (h : pyTruthy d.title = true) : t2_title a d = d := by
  unfold t2_title
  rw [if_pos h]

theorem t2_authors_keeps (a : NewsArticle) (d : GData) :
    (t2_authors a d).title = d.title ∧ (t2_authors a d).author = d.author
    ∧ (t2_authors a d).date = d.date ∧ (t2_authors a d).content_raw = d.content_raw
    ∧ (t2_authors a d).content = d.content := by
  unfold t2_authors
  split_ifs <;> exact ⟨rfl, rfl, rfl, rfl, rfl⟩

theorem t2_date_keeps (a : NewsArticle) (d : GData) :
    (t2_date a d).title = d.title ∧ (t2_date a d).author = d.author
    ∧ (t2_date a d).date = d.date ∧ (t2_date a d).content_raw = d.content_raw
    ∧ (t2_date a d).content = d.content := by
  unfold t2_date
  split_ifs <;> exact ⟨rfl, rfl, rfl, rfl, rfl⟩

theorem t2_text_keeps (a : NewsArticle) (d : GData) :
    (t2_text a d).title = d.title ∧ (t2_text a d).author = d.author
    ∧ (t2_text a d).date = d.date ∧ (t2_text a d).content = d.content := by
  unfold t2_text
  split_ifs <;> exact ⟨rfl, rfl, rfl, rfl⟩

theorem t2_text_of_truthy (a : NewsArticle) (d : GData)
    (h : pyTruthy d.content_raw = true) : t2_text a d = d := by
  unfold t2_text
  rw [if_neg]
  simp [h]

theorem t2_images_keeps (a : NewsArticle) (d : GData) :
    (t2_images a d).title = d.title ∧ (t2_images a d).author = d.author
    ∧ (t2_images a d).date = d.date ∧ (t2_images a d).content_raw = d.content_raw
    ∧ (t2_images a d).content = d.content := by
  unfold t2_images
  split_ifs <;> exact ⟨rfl, rfl, rfl, rfl, rfl⟩

theorem t2_top_keeps (a : NewsArticle) (d : GData) :
    (t2_top a d).title = d.title ∧ (t2_top a d).author = d.author
    ∧ (t2_top a d).date = d.date ∧ (t2_top a d).content_raw = d.content_raw
    ∧ (t2_top a d).content = d.content := by
  unfold t2_top
  split_ifs <;> exact ⟨rfl, rfl, rfl, rfl, rfl⟩

theorem tier3_title_keeps (sv : SoupView) (d : GData) :
    (tier3_title sv d).author = d.author
    ∧ (tier3_title sv d).date = d.date
    ∧ (tier3_title sv d).content_raw = d.content_raw
    ∧ (tier3_title sv d).content = d.content := by
  unfold tier3_title
  by_cases h : pyTruthy d.title = true
  · rw [if_pos h]
    exact ⟨rfl, rfl, rfl, rfl⟩
  · rw [if_neg h]
    cases sv.titleText <;> exact ⟨rfl, rfl, rfl, rfl⟩

theorem tier3_title_of_truthy (sv : SoupView) (d : GData)
    (h : pyTruthy d.title = true) : tier3_title sv d = d := by
  unfold tier3_title
  rw [if_pos h]

theorem tier3_body_keeps (sv : SoupView) (d : GData) :
    (tier3_body sv d).title = d.title
    ∧ (tier3_body sv d).author = d.author
    ∧ (tier3_body sv d).date = d.date
    ∧ (tier3_body sv d).content_raw = d.content_raw := by
  unfold tier3_body
  cases hc : sv.container with
  | none => exact ⟨rfl, rfl, rfl, rfl⟩
  | some p =>
    obtain ⟨elems, imgs⟩ := p
    dsimp only
    split_ifs <;> exact ⟨rfl, rfl, rfl, rfl⟩

/-- C8 (amended): in the generic extractor's three-tier pipeline, the
fill-only-if-absent rule holds for title, author, date and body content —
a later tier never overwrites a populated one of those fields — and the
heuristic DOM tier runs only when no body content was produced (a truthy
`content_raw` makes tier 3 a no-op). The images field is the exception
established by the counterexample: tier 3 may overwrite images that
tier 2 stored. -/
theorem C8_fill_only_if_absent (hasTraf hasNews : Bool) (url domain : Str)
    (tr : TrafResult) (art : Option NewsArticle) (sv : SoupView) (d : GData) :
    genericExtract hasTraf hasNews url domain tr art sv
      = tier3_heuristic sv (tier2_newspaper hasNews art
          (tier1_trafilatura hasTraf tr (gInit url domain)))
    ∧ (pyTruthy d.title = true → (tier2_newspaper hasNews art d).title = d.title)
    ∧ (tier2_newspaper hasNews art d).author = d.author
    ∧ (tier2_newspaper hasNews art d).date = d.date
    ∧ (pyTruthy d.content_raw = true →
        (tier2_newspaper hasNews art d).content_raw = d.content_raw)
    ∧ (tier2_newspaper hasNews art d).content = d.content
    ∧ (pyTruthy d.title = true → (tier3_heuristic sv d).title = d.title)
    ∧ (tier3_heuristic sv d).author = d.author
    ∧ (tier3_heuristic sv d).date = d.date
    ∧ (tier3_heuristic sv d).content_raw = d.content_raw
    ∧ (pyTruthy d.content_raw = true → tier3_heuristic sv d = d) := by
  have ht3 : ∀ d' : GData, (tier3_heuristic sv d').author = d'.author
      ∧ (tier3_heuristic sv d').date = d'.date
      ∧ (tier3_heuristic sv d').content_raw = d'.content_raw := by
    intro d'
    unfold tier3_heuristic
    by_cases hcr : pyTruthy d'.content_raw = true
    · rw [if_pos hcr]
      exact ⟨rfl, rfl, rfl⟩
    · rw [if_neg hcr]
      obtain ⟨hb1, hb2, hb3, hb4⟩ := tier3_body_keeps sv (tier3_title sv d')
      obtain ⟨ht1, ht2, ht3, _⟩ := tier3_title_keeps sv d'
      exact ⟨hb2.trans ht1, hb3.trans ht2, hb4.trans ht3⟩
  refine ⟨rfl, ?_, ?_, ?_, ?_, ?_, ?_, (ht3 d).1, (ht3 d).2.1, (ht3 d).2.2, ?_⟩
  · intro h
    cases hasNews with
    | false => rfl
    | true =>
      cases art with
      | none => rfl
      | some a =>
        show (t2_top a (t2_images a (t2_text a (t2_date a (t2_authors a
          (t2_title a d)))))).title = d.title
        rw [(t2_top_keeps a _).1, (t2_images_keeps a _).1, (t2_text_keeps a _).1,
          (t2_date_keeps a _).1, (t2_authors_keeps a _).1, t2_title_of_truthy a d h]
  · cases hasNews with
    | false => rfl
    | true =>
      cases art with
      | none => rfl
      | some a =>
        show (t2_top a (t2_images a (t2_text a (t2_date a (t2_authors a
          (t2_title a d)))))).author = d.author
        rw [(t2_top_keeps a _).2.1, (t2_images_keeps a _).2.1, (t2_text_keeps a _).2.1,
          (t2_date_keeps a _).2.1, (t2_authors_keeps a _).2.1, (t2_title_keeps a d).1]
  · cases hasNews with
    | false => rfl
    | true =>
      cases art with
      | none => rfl
      | some a =>
        show (t2_top a (t2_images a (t2_text a (t2_date a (t2_authors a
          (t2_title a d)))))).date = d.date
        rw [(t2_top_keeps a _).2.2.1, (t2_images_keeps a _).2.2.1, (t2_text_keeps a _).2.2.1,
          (t2_date_keeps a _).2.2.1, (t2_authors_keeps a _).2.2.1, (t2_title_keeps a d).2.1]
  · intro h
    cases hasNews with
    | false => rfl
    | true =>
      cases art with
      | none => rfl
      | some a =>
        show (t2_top a (t2_images a (t2_text a (t2_date a (t2_authors a
          (t2_title a d)))))).content_raw = d.content_raw
        have hpre : (t2_date a (t2_authors a (t2_title a d))).content_raw
            = d.content_raw := by
          rw [(t2_date_keeps a _).2.2.2.1, (t2_authors_keeps a _).2.2.2.1,
            (t2_title_keeps a d).2.2.1]
        rw [(t2_top_keeps a _).2.2.2.1, (t2_images_keeps a _).2.2.2.1,
          t2_text_of_truthy a _ (by rw [hpre]; exact h), hpre]
  · cases hasNews with
    | false => rfl
    | true =>
      cases art with
      | none => rfl
      | some a =>
        show (t2_top a (t2_images a (t2_text a (t2_date a (t2_authors a
          (t2_title a d)))))).content = d.content
        rw [(t2_top_keeps a _).2.2.2.2, (t2_images_keeps a _).2.2.2.2,
          (t2_text_keeps a _).2.2.2, (t2_date_keeps a _).2.2.2.2,
          (t2_authors_keeps a _).2.2.2.2, (t2_title_keeps a d).2.2.2]
  · intro h
    unfold tier3_heuristic
    by_cases hcr : pyTruthy d.content_raw = true
    · rw [if_pos hcr]
    · rw [if_neg hcr, tier3_title_of_truthy sv d h]
      exact (tier3_body_keeps sv d).1.trans rfl
  · intro h
    unfold tier3_heuristic
    rw [if_pos h]

/-- C8 (counterexample to the claim as stated): when trafilatura yields
nothing, newspaper3k yields images but an empty body text, and the
heuristic container holds a non-boilerplate image, tier 2 populates
`images` and tier 3 then overwrites that populated field — the later tier
does not leave the earlier tier's value in place. -/
theorem C8_counterexample :
    (tier2_newspaper true
        (some ⟨"T".toList, [], none, [], ["http://x/a.png".toList], []⟩)
        (tier1_trafilatura true {} (gInit "http://x".toList "x".toList))).images
      = some [⟨"http://x/a.png".toList, none, none⟩]
    ∧ (genericExtract true true "http://x".toList "x".toList {}
        (some ⟨"T".toList, [], none, [], ["http://x/a.png".toList], []⟩)
        { container := some ([], [⟨some "http://x/b.png".toList, none, "B".toList⟩]) }).images
      = some [⟨"http://x/b.png".toList, some "B".toList, none⟩]
    ∧ (some [(⟨"http://x/a.png".toList, none, none⟩ : StoredImg)]
        ≠ some [(⟨"http://x/b.png".toList, some "B".toList, none⟩ : StoredImg)]) := by
  refine ⟨by decide, by decide, by decide⟩

/-- Concrete data for the C8 witness: a tier-1 result with truthy title
and body, the newspaper tier failing, and a heuristic view that would
supply a title and a container. -/
def dC8 : GData := { title := some "T".toList, content_raw := some "body".toList }

/-- A newspaper article for the C8 witness. -/
def artC8 : Option NewsArticle :=
  some ⟨"T2".toList, ["a".toList], none, "x".toList, ["http://i/p.png".toList], "t".toList⟩

/-- A soup view for the C8 witness. -/
def svC8 : SoupView :=
  { titleText := some "S".toList
    container := some ([⟨"p".toList, "twenty-one characters!".toList⟩], []) }

/-- Witness for C8 at a state with populated title and body content. -/
theorem C8_fill_only_if_absent_witness :
    pyTruthy dC8.title = true
    ∧ pyTruthy dC8.content_raw = true
    ∧ (tier2_newspaper true artC8 dC8).title = dC8.title
    ∧ (tier2_newspaper true artC8 dC8).content_raw = dC8.content_raw
    ∧ (tier3_heuristic svC8 dC8).title = dC8.title
    ∧ tier3_heuristic svC8 dC8 = dC8 := by
  have h := C8_fill_only_if_absent true true "u".toList "d".toList {} artC8 svC8 dC8
  exact ⟨by decide, by decide, h.2.1 (by decide), h.2.2.2.2.1 (by decide),
    h.2.2.2.2.2.2.1 (by decide), h.2.2.2.2.2.2.2.2.2.2 (by decide)⟩

/- ### Claim C9: Jane Street main-article selection
(`JaneStreetBlogExtractor.extract`) -/

/-- One `article` tag found by `soup.find_all("article")`: whether it
contains a `div` with class `post-header` (the result of
`article_tag.find("div", class_="post-header")` being truthy), plus its
content as an identifying payload. -/
structure ArticleTag where
  hasPostHeader : Bool
  payload : Str
deriving DecidableEq

/-- The main-article selection loop of `JaneStreetBlogExtractor.extract`:
take the first article containing the `post-header` marker; when none
carries the marker, fall back to the first article and print a warning
(the returned flag records whether the warning path ran). An empty
article list selects nothing. -/
def select_main_article (arts : List ArticleTag) : Option ArticleTag × Bool :=
  match arts.find? (fun a => a.hasPostHeader) with
  | some a => (some a, false)
  | none =>
    match arts with
    | [] => (none, false)
    | a :: _ => (some a, true)

theorem find_unique_marker (arts : List ArticleTag) (a : ArticleTag)
    (ha : a ∈ arts) (hm : a.hasPostHeader = true)
    (huniq : ∀ b ∈ arts, b.hasPostHeader = true → b = a) :
    arts.find? (fun x => x.hasPostHeader) = some a := by
  induction arts with
  | nil => simp at ha
  | cons h t ih =>
    by_cases hh : h.hasPostHeader = true
    · rw [List.find?_cons_of_pos _ hh]
      rw [huniq h (List.mem_cons_self h t) hh]
    · rw [List.find?_cons_of_neg _ (by simpa using hh)]
      have hat : a ∈ t := by
        rcases List.mem_cons.mp ha with rfl | hmem
        · exact absurd hm hh
        · exact hmem
      exact ih hat (fun b hb hbm => huniq b (List.mem_cons_of_mem _ hb) hbm)

/-- C9: when a document offers several candidate `article` containers, the
Jane Street extractor selects the unique candidate whose substructure
contains the `post-header` marker (ignoring every other candidate, even
though all of them matched the `article` tag search that produced the
list), without warning; and when no candidate carries the marker, it
falls back to the first candidate and reports this via the warning path,
not an error — the selection still succeeds. -/
theorem C9_marker_selection (arts : List ArticleTag) :
    (∀ a ∈ arts, a.hasPostHeader = true →
      (∀ b ∈ arts, b.hasPostHeader = true → b = a) →
      select_main_article arts = (some a, false))
    ∧ (∀ (h : ArticleTag) (t : List ArticleTag), arts = h :: t →
      (∀ b ∈ arts, b.hasPostHeader = false) →
      select_main_article arts = (some h, true)) := by
  constructor
  · intro a ha hm huniq
    rw [select_main_article.eq_def, find_unique_marker arts a ha hm huniq]
  · intro h t harts hnone
    have hfind : arts.find? (fun x => x.hasPostHeader) = none := by
      rw [List.find?_eq_none]
      intro x hx
      simp [hnone x hx]
    rw [select_main_article.eq_def, hfind, harts]

/-- Witness for C9: three candidates of which only the second carries the
marker — the second is selected without warning; and a two-candidate list
without any marker — the first is selected with the warning flag set. -/
theorem C9_marker_selection_witness :
    select_main_article
        [⟨false, "n1".toList⟩, ⟨true, "main".toList⟩, ⟨false, "n2".toList⟩]
      = (some ⟨true, "main".toList⟩, false)
    ∧ select_main_article [⟨false, "n1".toList⟩, ⟨false, "n2".toList⟩]
      = (some ⟨false, "n1".toList⟩, true) :=
  ⟨(C9_marker_selection
      [⟨false, "n1".toList⟩, ⟨true, "main".toList⟩, ⟨false, "n2".toList⟩]).1
      ⟨true, "main".toList⟩ (by decide) (by decide) (by decide),
   (C9_marker_selection [⟨false, "n1".toList⟩, ⟨false, "n2".toList⟩]).2
      ⟨false, "n1".toList⟩ [⟨false, "n2".toList⟩] (by decide) (by decide)⟩
